import Mathlib

/-!
Verification of the capng wrapper (`src/lib.rs`): error mapping of the
kernel-sync operations, the batched update protocol, name resolution, and
the classification of have-capabilities results.  The underlying kernel
capability interface (libcap-ng, reached through FFI declarations in
`src/bindings.rs`) is external to the crate; wrapper functions are embedded
parameterized over the return codes / state transformers of that interface,
and where a claim needs the interface's own semantics they are modelled
from the spec (definitions marked `Modelled from the spec:`).
-/

namespace Capng

/-- Decidable equality of `Except` results, for evaluating outcomes on
concrete inputs. -/
instance {ε α : Type} [DecidableEq ε] [DecidableEq α] : DecidableEq (Except ε α) := fun a b =>
  match a, b with
  | .ok x, .ok y =>
    if h : x = y then isTrue (by rw [h]) else isFalse (by intro hc; injection hc; contradiction)
  | .ok _, .error _ => isFalse (by intro hc; cases hc)
  | .error _, .ok _ => isFalse (by intro hc; cases hc)
  | .error x, .error y =>
    if h : x = y then isTrue (by rw [h]) else isFalse (by intro hc; injection hc; contradiction)

/-- The `Error` enum of `src/lib.rs`.  `File` payloads are represented by
their raw file descriptor. -/
inductive Error where
  | ApplyCapabilities
  | ApplyCapsFile (fd : Int)
  | ChangeTargetId
  | ConvertCapabilityName
  | GetCapabilityId (name : String)
  | GetCapsFile (fd : Int)
  | GetProcessCapabilities
  | InvalidHaveCapsResult (n : Int)
  | LockCapabilities
  | NameToCapability (cap : Nat)
  | UpdateCapability (cap : Nat)
  deriving DecidableEq, Repr

/-- The `HaveCapsResult` enum of `src/lib.rs`. -/
inductive HaveCapsResult where
  | FAIL
  | NONE
  | PARTIAL
  | FULL
  deriving DecidableEq, Repr

/-- The `Action` enum of `src/lib.rs`. -/
inductive Action where
  | DROP
  | ADD
  deriving DecidableEq, Repr

/-- Bit of `Type::EFFECTIVE`. -/
def EFFECTIVE : Nat := 1

/-- Bit of `Type::PERMITTED`. -/
def PERMITTED : Nat := 2

/-- Bit of `Type::INHERITABLE`. -/
def INHERITABLE : Nat := 4

/-- Bit of `Type::BOUNDING_SET`. -/
def BOUNDING_SET : Nat := 8

/-- Bit of `Set::CAPS`. -/
def CAPS : Nat := 16

/-- Bit of `Set::BOUNDS`. -/
def BOUNDS : Nat := 32

/-- `Set::BOTH = CAPS | BOUNDS`. -/
def BOTH : Nat := CAPS ||| BOUNDS

/-- The `CUpdate` struct of `src/lib.rs`: one (action, kind, capability)
instruction.  `cap_type` is the bit mask of the targeted kinds. -/
structure CUpdate where
  action : Action
  cap_type : Nat
  capability : Nat
  deriving DecidableEq, Repr

/-- `TryFrom<i32> for HaveCapsResult` of `src/lib.rs`: -1/0/1/2 map to
FAIL/NONE/PARTIAL/FULL, anything else to `InvalidHaveCapsResult(n)`. -/
def HaveCapsResult.tryFrom (n : Int) : Except Error HaveCapsResult :=
  if n = -1 then .ok .FAIL
  else if n = 0 then .ok .NONE
  else if n = 1 then .ok .PARTIAL
  else if n = 2 then .ok .FULL
  else .error (.InvalidHaveCapsResult n)

/-- `get_caps_process` of `src/lib.rs`, as a function of the return code of
`capng_get_caps_process()`. -/
def get_caps_process (ret : Int) : Except Error Unit :=
  if ret = 0 then .ok () else .error .GetProcessCapabilities

/-- `apply` of `src/lib.rs`, as a function of the return code of
`capng_apply(set)`. -/
def apply (ret : Int) : Except Error Unit :=
  if ret = 0 then .ok () else .error .ApplyCapabilities

/-- `lock` of `src/lib.rs`, as a function of the return code of
`capng_lock()`. -/
def lock (ret : Int) : Except Error Unit :=
  if ret = 0 then .ok () else .error .LockCapabilities

/-- `change_id` of `src/lib.rs`, as a function of the return code of
`capng_change_id(uid, gid, flags)`. -/
def change_id (ret : Int) : Except Error Unit :=
  if ret = 0 then .ok () else .error .ChangeTargetId

/-- `get_caps_file` of `src/lib.rs`, as a function of the file's raw
descriptor and the return code of `capng_get_caps_fd(fd)`. -/
def get_caps_file (fd : Int) (ret : Int) : Except Error Unit :=
  if ret = 0 then .ok () else .error (.GetCapsFile fd)

/-- `apply_caps_fd` of `src/lib.rs`, as a function of the file's raw
descriptor and the return code of `capng_apply_caps_fd(fd)`. -/
def apply_caps_fd (fd : Int) (ret : Int) : Except Error Unit :=
  if ret = 0 then .ok () else .error (.ApplyCapsFile fd)

/-- `have_capabilities` of `src/lib.rs`, as a function of the code returned
by `capng_have_capabilities(set)`. -/
def have_capabilities (ret : Int) : Except Error HaveCapsResult :=
  HaveCapsResult.tryFrom ret

/-- `have_permitted_capabilities` of `src/lib.rs`, as a function of the code
returned by `capng_have_permitted_capabilities()`. -/
def have_permitted_capabilities (ret : Int) : Except Error HaveCapsResult :=
  HaveCapsResult.tryFrom ret

/-- `have_capability` of `src/lib.rs`: `k` is the kernel's
`capng_have_capability(which, capability)` test. -/
def have_capability (k : Nat → Nat → Int) (which capability : Nat) : Bool :=
  k which capability == 1

/-- Whether a Rust string contains a NUL byte (the condition under which
`CString::new` fails in `name_to_capability`). -/
def containsNul (name : String) : Bool :=
  name.data.contains (Char.ofNat 0)

/-- `name_to_capability` of `src/lib.rs`: `k` is the kernel's
`capng_name_to_capability` lookup.  A name with a NUL byte fails CString
conversion before the lookup; a negative lookup result becomes
`GetCapabilityId(name)`; otherwise the id is cast to `Capability` (u32). -/
def name_to_capability (k : String → Int) (name : String) : Except Error Nat :=
  if containsNul name then .error .ConvertCapabilityName
  else
    let cap_id : Int := k name
    if cap_id < 0 then .error (.GetCapabilityId name)
    else .ok cap_id.toNat

/-- `capability_to_name` of `src/lib.rs`: `k` is the kernel's
`capng_capability_to_name`, returning `none` for a NULL pointer. -/
def capability_to_name (k : Nat → Option String) (capability : Nat) : Except Error String :=
  match k capability with
  | none => .error (.NameToCapability capability)
  | some name => .ok name

/-- `update` of `src/lib.rs`, parameterized over the kernel's
`capng_update` as a state transformer `k` returning (code, new state):
applies the batch front to back, stopping with `UpdateCapability` at the
first negative code. -/
def update {σ : Type} (k : σ → Action → Nat → Nat → Int × σ) :
    σ → List CUpdate → σ × Except Error Unit
  | s, [] => (s, .ok ())
  | s, u :: rest =>
    let r := k s u.action u.cap_type u.capability
    if r.1 < 0 then (r.2, .error (.UpdateCapability u.capability))
    else update k r.2 rest

/-- `updatev` of `src/lib.rs`, parameterized over the kernel's
`capng_update` (`k`) and `capng_name_to_capability` (`lookup`): resolves
each name, then applies it, stopping at the first resolution failure or
negative update code. -/
def updatev {σ : Type} (k : σ → Action → Nat → Nat → Int × σ) (lookup : String → Int)
    (action : Action) (ty : Nat) : σ → List String → σ × Except Error Unit
  | s, [] => (s, .ok ())
  | s, name :: rest =>
    match name_to_capability lookup name with
    | .error e => (s, .error e)
    | .ok cap =>
      let r := k s action ty cap
      if r.1 < 0 then (r.2, .error (.UpdateCapability cap))
      else updatev k lookup action ty r.2 rest

/-- The kernel state reached by running every update of a batch through the
kernel transformer `k`, ignoring return codes. -/
def runAll {σ : Type} (k : σ → Action → Nat → Nat → Int × σ) :
    σ → List CUpdate → σ
  | s, [] => s
  | s, u :: rest => runAll k (k s u.action u.cap_type u.capability).2 rest

/-- Whether the kernel transformer `k` accepts (non-negative code) every
update of the batch, run in sequence from state `s`. -/
def acceptsAll {σ : Type} (k : σ → Action → Nat → Nat → Int × σ) :
    σ → List CUpdate → Bool
  | _, [] => true
  | s, u :: rest =>
    let r := k s u.action u.cap_type u.capability
    decide (0 ≤ r.1) && acceptsAll k r.2 rest

/-- The kernel state reached by resolving and applying every name of a
batch through `lookup` and `k`, ignoring failures. -/
def runAllNames {σ : Type} (k : σ → Action → Nat → Nat → Int × σ) (lookup : String → Int)
    (action : Action) (ty : Nat) : σ → List String → σ
  | s, [] => s
  | s, name :: rest =>
    match name_to_capability lookup name with
    | .error _ => s
    | .ok cap => runAllNames k lookup action ty (k s action ty cap).2 rest

/-- Whether every name of the batch resolves via `lookup` and is accepted
(non-negative code) by the kernel transformer `k`, run in sequence. -/
def resolvesAll {σ : Type} (k : σ → Action → Nat → Nat → Int × σ) (lookup : String → Int)
    (action : Action) (ty : Nat) : σ → List String → Bool
  | _, [] => true
  | s, name :: rest =>
    match name_to_capability lookup name with
    | .error _ => false
    | .ok cap =>
      let r := k s action ty cap
      decide (0 ≤ r.1) && resolvesAll k lookup action ty r.2 rest

/-- Modelled from the spec: the kernel's fixed capability table (the
platform's canonical capability names, indexed by numeric id), which is not
part of the crate (it lives behind `capng_name_to_capability` /
`capng_capability_to_name` in the external library). -/
def capTable : List String :=
  ["CHOWN", "DAC_OVERRIDE", "DAC_READ_SEARCH", "FOWNER", "FSETID", "KILL",
   "SETGID", "SETUID", "SETPCAP", "LINUX_IMMUTABLE", "NET_BIND_SERVICE",
   "NET_BROADCAST", "NET_ADMIN", "NET_RAW", "IPC_LOCK", "IPC_OWNER",
   "SYS_MODULE", "SYS_RAWIO", "SYS_CHROOT", "SYS_PTRACE", "SYS_PACCT",
   "SYS_ADMIN", "SYS_BOOT", "SYS_NICE", "SYS_RESOURCE", "SYS_TIME",
   "SYS_TTY_CONFIG", "MKNOD", "LEASE", "AUDIT_WRITE", "AUDIT_CONTROL",
   "SETFCAP", "MAC_OVERRIDE", "MAC_ADMIN", "SYSLOG", "WAKE_ALARM",
   "BLOCK_SUSPEND", "AUDIT_READ", "PERFMON", "BPF", "CHECKPOINT_RESTORE"]

/-- Number of capabilities the modelled platform supports; valid capability
ids are `0 ≤ cap < numCaps`. -/
def numCaps : Nat := capTable.length

/-- First index of `name` in a table, or -1: the lookup behind the modelled
`capng_name_to_capability`. -/
def lookupIdx : List String → String → Int
  | [], _ => -1
  | n :: rest, name =>
    if name = n then 0
    else
      let r := lookupIdx rest name
      if r < 0 then -1 else r + 1

/-- Modelled from the spec: `capng_name_to_capability` — a case-sensitive
lookup of a symbolic name in the kernel's capability table, negative when
the name is unknown. -/
def capng_name_to_capability (name : String) : Int :=
  lookupIdx capTable name

/-- Modelled from the spec: `capng_capability_to_name` — the reverse
lookup, `none` (a NULL pointer) when the id is out of the platform's
supported range. -/
def capng_capability_to_name (cap : Nat) : Option String :=
  capTable.get? cap

/-- Modelled from the spec: the in-memory staged capability state held by
the external library — one bit per capability for each of the four kinds. -/
structure StagedState where
  effective : Nat → Bool
  permitted : Nat → Bool
  inheritable : Nat → Bool
  bounding : Nat → Bool

/-- Point update of one capability bit. -/
def setBit (f : Nat → Bool) (cap : Nat) (b : Bool) : Nat → Bool :=
  fun c => if c = cap then b else f c

/-- Modelled from the spec: `capng_clear(set)` — zeroes all capability bits
of the kinds covered by the scope (CAPS covers the process kinds, BOUNDS
the bounding set).  Total: no failure mode. -/
def capng_clear (set : Nat) (s : StagedState) : StagedState :=
  { effective := if set &&& CAPS ≠ 0 then fun _ => false else s.effective
    permitted := if set &&& CAPS ≠ 0 then fun _ => false else s.permitted
    inheritable := if set &&& CAPS ≠ 0 then fun _ => false else s.inheritable
    bounding := if set &&& BOUNDS ≠ 0 then fun _ => false else s.bounding }

/-- Modelled from the spec: `capng_fill(set)` — sets all capability bits of
the kinds covered by the scope.  Total: no failure mode. -/
def capng_fill (set : Nat) (s : StagedState) : StagedState :=
  { effective := if set &&& CAPS ≠ 0 then fun _ => true else s.effective
    permitted := if set &&& CAPS ≠ 0 then fun _ => true else s.permitted
    inheritable := if set &&& CAPS ≠ 0 then fun _ => true else s.inheritable
    bounding := if set &&& BOUNDS ≠ 0 then fun _ => true else s.bounding }

/-- `clear` of `src/lib.rs`: forwards to `capng_clear`; returns no error. -/
def clear (set : Nat) (s : StagedState) : StagedState :=
  capng_clear set s

/-- `fill` of `src/lib.rs`: forwards to `capng_fill`; returns no error. -/
def fill (set : Nat) (s : StagedState) : StagedState :=
  capng_fill set s

/-- ADD sets a bit, DROP clears it. -/
def actBit : Action → Bool
  | .ADD => true
  | .DROP => false

/-- Modelled from the spec: `capng_update(action, type, capability)` — an
unknown capability number is rejected (negative code) and the staged state
is untouched; otherwise the bit of each kind selected by the type mask is
set or cleared per the action, and the code is 0. -/
def capng_update (s : StagedState) (action : Action) (ty : Nat) (cap : Nat) :
    Int × StagedState :=
  if cap < numCaps then
    (0,
     { effective := if ty &&& EFFECTIVE ≠ 0 then setBit s.effective cap (actBit action) else s.effective
       permitted := if ty &&& PERMITTED ≠ 0 then setBit s.permitted cap (actBit action) else s.permitted
       inheritable := if ty &&& INHERITABLE ≠ 0 then setBit s.inheritable cap (actBit action) else s.inheritable
       bounding := if ty &&& BOUNDING_SET ≠ 0 then setBit s.bounding cap (actBit action) else s.bounding })
  else (-1, s)

/-- Classification of one kind's bits over the platform's capability range:
0 when no bit is set, 2 when all are, 1 otherwise. -/
def classify (bits : Nat → Bool) : Int :=
  if (List.range numCaps).all (fun c => !(bits c)) then 0
  else if (List.range numCaps).all (fun c => bits c) then 2
  else 1

/-- Modelled from the spec: `capng_have_capabilities(set)` — classifies the
staged state of the scope as -1 (FAIL: no scope selected, the comparison
cannot be performed), 0 (NONE), 1 (PARTIAL) or 2 (FULL), combining the
effective kind for CAPS and the bounding kind for BOUNDS. -/
def capng_have_capabilities (s : StagedState) (set : Nat) : Int :=
  if set &&& BOTH = 0 then -1
  else
    let cs := (if set &&& CAPS ≠ 0 then [classify s.effective] else []) ++
              (if set &&& BOUNDS ≠ 0 then [classify s.bounding] else [])
    if cs.all (fun c => c == 0) then 0
    else if cs.all (fun c => c == 2) then 2
    else 1

/-- The staged bit of one kind flag (1/2/4/8) for one capability. -/
def kindBit (s : StagedState) (k cap : Nat) : Bool :=
  if k = EFFECTIVE then s.effective cap
  else if k = PERMITTED then s.permitted cap
  else if k = INHERITABLE then s.inheritable cap
  else if k = BOUNDING_SET then s.bounding cap
  else false

/-- The all-clear staged state. -/
def stateEmpty : StagedState :=
  { effective := fun _ => false
    permitted := fun _ => false
    inheritable := fun _ => false
    bounding := fun _ => false }

/-- A small concrete kernel transformer used to exercise the batch
theorems: capabilities 0 and 1 are accepted and recorded, others rejected
with the state untouched. -/
def kdemo (s : List Nat) (_ : Action) (_ : Nat) (cap : Nat) : Int × List Nat :=
  if cap < 2 then (0, cap :: s) else (-1, s)

/-- A small concrete name lookup used to exercise the by-name batch
theorem: "A" is 0, "B" is 1, everything else unknown. -/
def lookupDemo (name : String) : Int :=
  if name = "A" then 0 else if name = "B" then 1 else -1

/-- Running an update batch whose prefix the kernel accepts first threads
the prefix through the kernel, then continues with the rest. -/
theorem update_append {σ : Type} (k : σ → Action → Nat → Nat → Int × σ)
    (pre rest : List CUpdate) (s : σ) (h : acceptsAll k s pre = true) :
    update k s (pre ++ rest) = update k (runAll k s pre) rest := by
  induction pre generalizing s with
  | nil => rfl
  | cons u t ih =>
    simp only [acceptsAll, Bool.and_eq_true, decide_eq_true_eq] at h
    obtain ⟨h1, h2⟩ := h
    rw [List.cons_append]
    simp only [update, runAll]
    rw [if_neg (not_lt.mpr h1)]
    exact ih _ h2

/-- Running a by-name batch whose prefix resolves and is accepted first
threads the prefix, then continues with the rest. -/
theorem updatev_append {σ : Type} (k : σ → Action → Nat → Nat → Int × σ)
    (lookup : String → Int) (action : Action) (ty : Nat)
    (pre rest : List String) (s : σ)
    (h : resolvesAll k lookup action ty s pre = true) :
    updatev k lookup action ty s (pre ++ rest)
      = updatev k lookup action ty (runAllNames k lookup action ty s pre) rest := by
  induction pre generalizing s with
  | nil => rfl
  | cons n t ih =>
    rw [List.cons_append]
    cases hres : name_to_capability lookup n with
    | error e =>
      simp [resolvesAll, hres] at h
    | ok cap =>
      simp only [resolvesAll, hres, Bool.and_eq_true, decide_eq_true_eq] at h
      obtain ⟨h1, h2⟩ := h
      simp only [updatev, runAllNames, hres]
      rw [if_neg (not_lt.mpr h1)]
      exact ih _ h2

/-- Claim C1: `update` applies the batch strictly in order; at the first
update the kernel rejects (negative code, leaving its state untouched) it
stops with `UpdateCapability` naming that update's capability, the already
accepted prefix remains applied and the suffix is never attempted; a batch
the kernel fully accepts returns `Ok(())` with the whole batch applied. -/
theorem update_fail_fast {σ : Type} (k : σ → Action → Nat → Nat → Int × σ) (s : σ) :
    (∀ pre u post, acceptsAll k s pre = true →
      (k (runAll k s pre) u.action u.cap_type u.capability).1 < 0 →
      (k (runAll k s pre) u.action u.cap_type u.capability).2 = runAll k s pre →
      update k s (pre ++ u :: post)
        = (runAll k s pre, .error (.UpdateCapability u.capability)))
    ∧ (∀ l, acceptsAll k s l = true →
      update k s l = (runAll k s l, .ok ())) := by
  constructor
  · intro pre u post hpre hrej hkeep
    rw [update_append k pre (u :: post) s hpre]
    simp only [update]
    rw [if_pos hrej, hkeep]
  · intro l hl
    have h := update_append k l [] s hl
    simpa using h

/-- Witness for C1: with a kernel accepting only capabilities below 2, the
batch [0, 5, 1] stops at 5 with capability 0 applied and 1 unattempted. -/
theorem update_fail_fast_witness :
    update kdemo [] [⟨.ADD, 1, 0⟩, ⟨.ADD, 1, 5⟩, ⟨.ADD, 1, 1⟩]
      = ([0], .error (.UpdateCapability 5)) := by
  have h := (update_fail_fast kdemo []).1 [⟨.ADD, 1, 0⟩] ⟨.ADD, 1, 5⟩ [⟨.ADD, 1, 1⟩]
    (by decide) (by decide) (by decide)
  exact h

/-- Claim C4: `updatev` resolves each name in order before applying it; a
resolution failure aborts the batch there, reporting that failure, with
the already applied prefix kept and the remaining names neither resolved
nor applied; a batch that fully resolves and is fully accepted returns
`Ok(())`. -/
theorem updatev_resolution_abort {σ : Type} (k : σ → Action → Nat → Nat → Int × σ)
    (lookup : String → Int) (action : Action) (ty : Nat) (s : σ) :
    (∀ pre bad post e, resolvesAll k lookup action ty s pre = true →
      name_to_capability lookup bad = .error e →
      updatev k lookup action ty s (pre ++ bad :: post)
        = (runAllNames k lookup action ty s pre, .error e))
    ∧ (∀ l, resolvesAll k lookup action ty s l = true →
      updatev k lookup action ty s l = (runAllNames k lookup action ty s l, .ok ())) := by
  constructor
  · intro pre bad post e hpre hbad
    rw [updatev_append k lookup action ty pre (bad :: post) s hpre]
    simp only [updatev, hbad]
  · intro l hl
    have h := updatev_append k lookup action ty l [] s hl
    simpa using h

/-- Witness for C4: with names "A" and "B" known and the kernel accepting
them, the batch ["A", "X", "B"] aborts at the unknown "X" with "A" applied
and "B" unattempted. -/
theorem updatev_resolution_abort_witness :
    updatev kdemo lookupDemo .ADD 1 [] ["A", "X", "B"]
      = ([0], .error (.GetCapabilityId "X")) := by
  have h := (updatev_resolution_abort kdemo lookupDemo .ADD 1 []).1
    ["A"] "X" ["B"] (.GetCapabilityId "X") (by decide) (by decide)
  exact h

/-- Counterexample to C2 as stated: `apply` run with the non-negative
return code 1 reports `ApplyCapabilities` instead of succeeding. -/
theorem kernel_sync_retcode_cex :
    apply 1 = .error .ApplyCapabilities ∧ (0 : Int) ≤ 1 := by
  decide

/-- Claim C2 (amended): every fallible kernel-sync operation succeeds
exactly when the underlying kernel call returns zero, and returns its
operation-specific error for every nonzero return code, positive or
negative. -/
theorem kernel_sync_retcode (fd ret : Int) :
    (get_caps_process ret = .ok () ↔ ret = 0) ∧
    (ret ≠ 0 → get_caps_process ret = .error .GetProcessCapabilities) ∧
    (apply ret = .ok () ↔ ret = 0) ∧
    (ret ≠ 0 → apply ret = .error .ApplyCapabilities) ∧
    (lock ret = .ok () ↔ ret = 0) ∧
    (ret ≠ 0 → lock ret = .error .LockCapabilities) ∧
    (change_id ret = .ok () ↔ ret = 0) ∧
    (ret ≠ 0 → change_id ret = .error .ChangeTargetId) ∧
    (get_caps_file fd ret = .ok () ↔ ret = 0) ∧
    (ret ≠ 0 → get_caps_file fd ret = .error (.GetCapsFile fd)) ∧
    (apply_caps_fd fd ret = .ok () ↔ ret = 0) ∧
    (ret ≠ 0 → apply_caps_fd fd ret = .error (.ApplyCapsFile fd)) := by
  unfold get_caps_process apply lock change_id get_caps_file apply_caps_fd
  by_cases h : ret = 0 <;> simp [h]

/-- Witness for C2 (amended): the return code 3 makes `get_caps_process`
report `GetProcessCapabilities`. -/
theorem kernel_sync_retcode_witness :
    get_caps_process 3 = .error .GetProcessCapabilities :=
  (kernel_sync_retcode 0 3).2.1 (by decide)

/-- Claim C3: `have_capabilities` and `have_permitted_capabilities`
classify the kernel code -1/0/1/2 as FAIL/NONE/PARTIAL/FULL exactly, and
report `InvalidHaveCapsResult` carrying the code for every other value. -/
theorem have_caps_classification (ret : Int) :
    (have_capabilities ret = .ok .FAIL ↔ ret = -1) ∧
    (have_capabilities ret = .ok .NONE ↔ ret = 0) ∧
    (have_capabilities ret = .ok .PARTIAL ↔ ret = 1) ∧
    (have_capabilities ret = .ok .FULL ↔ ret = 2) ∧
    ((ret ≠ -1 ∧ ret ≠ 0 ∧ ret ≠ 1 ∧ ret ≠ 2) →
      have_capabilities ret = .error (.InvalidHaveCapsResult ret)) ∧
    have_permitted_capabilities ret = have_capabilities ret := by
  unfold have_capabilities have_permitted_capabilities HaveCapsResult.tryFrom
  split_ifs with h1 h2 h3 h4 <;> simp_all

/-- Witness for C3: the out-of-range code 7 is reported as
`InvalidHaveCapsResult 7`. -/
theorem have_caps_classification_witness :
    have_capabilities 7 = .error (.InvalidHaveCapsResult 7) :=
  (have_caps_classification 7).2.2.2.2.1 (by decide)

/-- Claim C5: after `clear(BOTH)` the query over BOTH classifies as NONE
and after `fill(BOTH)` it classifies as FULL, for any prior staged state;
`clear` and `fill` are total functions into `StagedState` (no error
component in their type), so they have no failure mode. -/
theorem clear_fill_query (s : StagedState) :
    have_capabilities (capng_have_capabilities (clear BOTH s) BOTH) = .ok .NONE ∧
    have_capabilities (capng_have_capabilities (fill BOTH s) BOTH) = .ok .FULL :=
  ⟨rfl, rfl⟩

/-- Claim C6: within one batch, later operations on the same (kind,
capability) override earlier ones: add-then-drop leaves the staged bit of
every targeted kind cleared, drop-then-add leaves it set, and both batches
succeed. -/
theorem update_override (s : StagedState) (ty cap k : Nat)
    (hcap : cap < numCaps)
    (hk : k ∈ [EFFECTIVE, PERMITTED, INHERITABLE, BOUNDING_SET])
    (hty : ty &&& k ≠ 0) :
    ((update capng_update s [⟨.ADD, ty, cap⟩, ⟨.DROP, ty, cap⟩]).2 = .ok () ∧
      kindBit (update capng_update s [⟨.ADD, ty, cap⟩, ⟨.DROP, ty, cap⟩]).1 k cap = false) ∧
    ((update capng_update s [⟨.DROP, ty, cap⟩, ⟨.ADD, ty, cap⟩]).2 = .ok () ∧
      kindBit (update capng_update s [⟨.DROP, ty, cap⟩, ⟨.ADD, ty, cap⟩]).1 k cap = true) := by
  fin_cases hk <;>
    simp_all [update, capng_update, kindBit, setBit, actBit,
      EFFECTIVE, PERMITTED, INHERITABLE, BOUNDING_SET]

/-- Witness for C6: on the empty state, adding then dropping capability 0
in the effective kind leaves its bit cleared, and dropping then adding
leaves it set. -/
theorem update_override_witness :
    ((update capng_update stateEmpty [⟨.ADD, 1, 0⟩, ⟨.DROP, 1, 0⟩]).2 = .ok () ∧
      kindBit (update capng_update stateEmpty [⟨.ADD, 1, 0⟩, ⟨.DROP, 1, 0⟩]).1 1 0 = false) ∧
    ((update capng_update stateEmpty [⟨.DROP, 1, 0⟩, ⟨.ADD, 1, 0⟩]).2 = .ok () ∧
      kindBit (update capng_update stateEmpty [⟨.DROP, 1, 0⟩, ⟨.ADD, 1, 0⟩]).1 1 0 = true) :=
  update_override stateEmpty 1 0 1 (by decide) (by decide) (by decide)

/-- The first-index lookup is non-negative on members and indexes back to
the looked-up element. -/
theorem lookupIdx_get (l : List String) (a : String) (h : a ∈ l) :
    0 ≤ lookupIdx l a ∧ l.get? (lookupIdx l a).toNat = some a := by
  induction l with
  | nil => cases h
  | cons n t ih =>
    by_cases he : a = n
    · subst he
      simp [lookupIdx]
    · have hm : a ∈ t := by
        cases h with
        | head => exact absurd rfl he
        | tail _ hmem => exact hmem
      obtain ⟨h1, h2⟩ := ih hm
      have hnn : ¬ lookupIdx t a < 0 := not_lt.mpr h1
      constructor
      · simp only [lookupIdx, if_neg he, if_neg hnn]
        omega
      · simp only [lookupIdx, if_neg he, if_neg hnn]
        have ht : (lookupIdx t a + 1).toNat = (lookupIdx t a).toNat + 1 := by omega
        rw [ht]
        simpa using h2

/-- Claim C7: every name in the platform capability table resolves to a
numeric capability whose reverse lookup returns the same name. -/
theorem name_roundtrip (N : String) (h : N ∈ capTable) :
    ∃ cap : Nat,
      name_to_capability capng_name_to_capability N = .ok cap ∧
      capability_to_name capng_capability_to_name cap = .ok N := by
  have hnul : containsNul N = false := by
    have hall : capTable.all (fun n => !(containsNul n)) = true := by decide
    rw [List.all_eq_true] at hall
    simpa using hall N h
  obtain ⟨h1, h2⟩ := lookupIdx_get capTable N h
  refine ⟨(lookupIdx capTable N).toNat, ?_, ?_⟩
  · simp [name_to_capability, capng_name_to_capability, hnul, not_lt.mpr h1]
  · rw [List.get?_eq_getElem?] at h2
    simp [capability_to_name, capng_capability_to_name, h2]

/-- Witness for C7: "CHOWN" resolves and its id names back to "CHOWN". -/
theorem name_roundtrip_witness :
    ∃ cap : Nat,
      name_to_capability capng_name_to_capability "CHOWN" = .ok cap ∧
      capability_to_name capng_capability_to_name cap = .ok "CHOWN" :=
  name_roundtrip "CHOWN" (by decide)

/-- Claim C9: a name holding a NUL byte makes `name_to_capability` report
`ConvertCapabilityName` whatever the kernel lookup would say (the lookup is
never consulted); a NUL-free name proceeds to the lookup, whose negative
result becomes `GetCapabilityId(name)` and whose non-negative result is
returned as the capability. -/
theorem name_to_capability_nul_guard (k : String → Int) (name : String) :
    (containsNul name = true →
      name_to_capability k name = .error .ConvertCapabilityName) ∧
    (containsNul name = false → k name < 0 →
      name_to_capability k name = .error (.GetCapabilityId name)) ∧
    (containsNul name = false → 0 ≤ k name →
      name_to_capability k name = .ok (k name).toNat) := by
  refine ⟨fun h => ?_, fun h1 h2 => ?_, fun h1 h2 => ?_⟩
  · simp [name_to_capability, h]
  · simp [name_to_capability, h1, h2]
  · simp [name_to_capability, h1, not_lt.mpr h2]

/-- Witness for C9: "A\x00B" is rejected before any lookup (even one that
would succeed), while "CHOWN" reaches the lookup and resolves. -/
theorem name_to_capability_nul_guard_witness :
    name_to_capability (fun _ => 0) "A\x00B" = .error .ConvertCapabilityName ∧
    name_to_capability (fun _ => 0) "CHOWN" = .ok 0 :=
  ⟨(name_to_capability_nul_guard (fun _ => 0) "A\x00B").1 (by decide),
   (name_to_capability_nul_guard (fun _ => 0) "CHOWN").2.2 (by decide) (by decide)⟩

/-- Claim C10: `have_capability` is total (it returns a `Bool`, never an
error): it is true exactly when the kernel's single-capability test
returns 1, and false for every other return value, negative codes
included. -/
theorem have_capability_total (k : Nat → Nat → Int) (which cap : Nat) :
    (have_capability k which cap = true ↔ k which cap = 1) ∧
    (k which cap ≠ 1 → have_capability k which cap = false) := by
  constructor
  · simp [have_capability]
  · intro h
    simp [have_capability, h]

/-- Witness for C10: a kernel test failing with -3 reads as "capability
not held". -/
theorem have_capability_total_witness :
    have_capability (fun _ _ => -3) 0 0 = false :=
  (have_capability_total (fun _ _ => -3) 0 0).2 (by decide)

end Capng
